import Mathlib

/-!
Verification of the `CalibrationEngine` class of
`src/pyocamcalib/modelling/calibration.py` (py-OCamCalib).

The Python class is embedded shallowly: the engine state becomes a
structure of `Option`-valued fields (Python `None` becomes `none`),
exceptions become an `Except PyError` result, and the numerical
routines that live in modules outside this repository snapshot
(`get_first_linear_estimate`, `get_taylor_linear`, `bundle_adjustement`,
`np.roots`, `np.polyfit`, `transform`, ...) enter as oracle parameters:
the control flow around them is translated literally from the source.
Real-valued quantities in the engine state are modelled over `ℚ` so that
everything evaluates; the purely mathematical forward projection map of
`show_model_projection` is modelled over `ℝ` further below.
-/

/-- Python exceptions raised by the engine: `ValueError` for the explicit
`raise` statements, `NameError` for reading a local variable that was
never assigned (messages abridged). -/
inductive PyError where
  | valueError (msg : String)
  | nameError (localName : String)
deriving DecidableEq

/-- Non-fatal conditions reported through `logger.warning` while execution
continues. -/
inductive PyWarning where
  | partialValidity (invalidImages : List String)
deriving DecidableEq

instance {ε α : Type} [DecidableEq ε] [DecidableEq α] : DecidableEq (Except ε α) := fun a b =>
  match a, b with
  | .error x, .error y => decidable_of_iff (x = y) (by simp)
  | .error _, .ok _ => isFalse (by simp)
  | .ok _, .error _ => isFalse (by simp)
  | .ok x, .ok y => decidable_of_iff (x = y) (by simp)


/-- Error and local-variable message texts of calibration.py (abridged:
implicit string concatenation joined, apostrophes and f-string payloads
dropped). -/
def msgDetectionsEmpty : String :=
  "Detections is empty. You first need to detect corners in several chessboard images or load a detection file."

def msgLinearFailed : String :=
  "Linear estimation failed of parameters failed."

def msgExtrinsicsEmpty : String :=
  "Extrinsics parameters are empty. You first need to calibrate camera."

def msgFisheyeEmpty : String :=
  "Fisheye parameters are empty. You first need to specify or load camera parameters."

def msgSampleRatio : String :=
  "sample_ratio have to be between 0 and 1."

def localInvCoefficient : String :=
  "inv_coefficient"

/-- State of `CalibrationEngine` (calibration.py lines 41-71), restricted to
the fields the claims are about.  `detections` keeps only the keys of the
`self.detections` dict (insertion order), which is all the control flow
reads; extrinsics are kept abstract as flat rational lists; the RMS/plot
bookkeeping fields are omitted. -/
structure CalibrationEngine where
  detections : List String
  distortion_center : Option (ℚ × ℚ)
  taylor_coefficient : Option (List ℚ)
  extrinsics_t : Option (List (List ℚ))
  stretch_matrix : Option (List (List ℚ))
  valid_pattern : Option (List Bool)
  inverse_poly : Option (List ℚ)
  distortion_center_linear : Option (ℚ × ℚ)
  taylor_coefficient_linear : Option (List ℚ)
  extrinsics_t_linear : Option (List (List ℚ))
deriving DecidableEq

/-- `CalibrationEngine.__init__` (lines 42-71): every model-parameter field
starts as `None` — in particular `stretch_matrix = None` (line 68) — except
`distortion_center`, initialised to half the sensor size (line 63);
`detections` starts empty (line 64). -/
def CalibrationEngine.fresh (sensor_size : ℚ × ℚ) : CalibrationEngine :=
  { detections := []
    distortion_center := some (sensor_size.1 / 2, sensor_size.2 / 2)
    taylor_coefficient := none
    extrinsics_t := none
    stretch_matrix := none
    valid_pattern := none
    inverse_poly := none
    distortion_center_linear := none
    taylor_coefficient_linear := none
    extrinsics_t_linear := none }

/-- Result of `get_first_linear_estimate` (external module
`pyocamcalib.core.linear_estimation`, not in this snapshot): treated as an
oracle input.  `valid_pattern` is `none` when the call returns `None`. -/
structure LinearEstimate where
  valid_pattern : Option (List Bool)
  d_center : ℚ × ℚ
  taylor : List ℚ
  extrinsics : List (List ℚ)

/-- Result of `bundle_adjustement` (external module `pyocamcalib.core.optim`,
not in this snapshot): oracle input. -/
structure BundleResult where
  extrinsics : List (List ℚ)
  stretch : List (List ℚ)
  d_center : ℚ × ℚ
  taylor : List ℚ

/-- Line 170: `[Path(img_path).name for img_path, valid in
zip(self.detections.keys(), valid_pattern) if not valid]` (keys are kept
whole instead of taking basenames). -/
def invalid_image_names (keys : List String) (valid_pattern : List Bool) : List String :=
  ((keys.zip valid_pattern).filter (fun p => !p.2)).map (fun p => p.1)

/-- The successful-path state update of `estimate_fisheye_parameters`:
lines 185-188 store the linear results, lines 197-200 store the
bundle-adjustment results. -/
def estimate_update (e : CalibrationEngine) (lin : LinearEstimate) (ba : BundleResult)
    (vp : List Bool) : CalibrationEngine :=
  { e with
      distortion_center_linear := some lin.d_center
      taylor_coefficient_linear := some lin.taylor
      extrinsics_t_linear := some lin.extrinsics
      valid_pattern := some vp
      distortion_center := some ba.d_center
      taylor_coefficient := some ba.taylor
      extrinsics_t := some ba.extrinsics
      stretch_matrix := some ba.stretch }

/-- `CalibrationEngine.estimate_fisheye_parameters` (lines 153-217).
Control flow from the source: the empty-detection guard (154-156) raises
`ValueError`; a `None` or all-`False` validity mask (164-167) raises
`ValueError`; a partially valid mask (168-172) logs a warning naming the
invalid images and continues; otherwise the linear results (185-188) and
the bundle-adjustment results (197-200) are stored.  The external
estimation calls are the oracles `lin` and `ba`; logging, the spinner and
the RMS bookkeeping are omitted. -/
def estimate_fisheye_parameters (e : CalibrationEngine)
    (lin : LinearEstimate) (ba : BundleResult) :
    Except PyError (CalibrationEngine × List PyWarning) :=
  if e.detections = [] then
    .error (.valueError msgDetectionsEmpty)
  else
    match lin.valid_pattern with
    | none => .error (.valueError msgLinearFailed)
    | some vp =>
      if vp.any id = false then
        .error (.valueError msgLinearFailed)
      else
        let warns : List PyWarning :=
          if vp.all id then [] else [.partialValidity (invalid_image_names e.detections vp)]
        .ok (estimate_update e lin ba vp, warns)

/-- `CalibrationEngine.get_chessboard_points_in_camera_system`
(lines 219-234).  `generate_checkerboard_points` and `transform` live in the
external `utils` module, so the board points `wp` and the rigid transform
`tr` are oracles; the two guards are translated literally — note the second
one is a truthiness test, `if not self.extrinsics_t`, so an empty extrinsics
list also raises. -/
def get_chessboard_points_in_camera_system (e : CalibrationEngine)
    (wp : List (ℚ × ℚ × ℚ)) (tr : List ℚ → List (ℚ × ℚ × ℚ) → List (ℚ × ℚ × ℚ)) :
    Except PyError (List (List (ℚ × ℚ × ℚ))) :=
  if e.detections = [] then
    .error (.valueError msgDetectionsEmpty)
  else
    match e.extrinsics_t with
    | none => .error (.valueError msgExtrinsicsEmpty)
    | some [] => .error (.valueError msgExtrinsicsEmpty)
    | some rs => .ok (rs.map (fun r => tr r wp))

/-- `CalibrationEngine.get_valid_image_paths` (lines 236-242):
`[img_path for img_path, valid in zip(self.detections.keys(),
self.valid_pattern) if valid]`. -/
def get_valid_image_paths (keys : List String) (valid_pattern : List Bool) : List String :=
  ((keys.zip valid_pattern).filter (fun p => p.2)).map (fun p => p.1)

/-- Minimum of a rational list, `none` on the empty list (models `np.min`
on the filtered root array, which is only reached when non-empty). -/
def listMinQ : List ℚ → Option ℚ
  | [] => none
  | x :: xs =>
    match listMinQ xs with
    | none => some x
    | some m => some (min x m)

/-- Lines 525-531 of `find_poly_inv`, for one angle sample: the complex
roots delivered by `np.roots` (oracle; re/im pairs) are filtered to the
positive real ones (`(roots > 0) & (np.imag(roots) == 0)`), and the sample
value is their minimum; when none remains the sample is `np.nan`, modelled
as `none`. -/
def selectRho (roots : List (ℚ × ℚ)) : Option ℚ :=
  listMinQ ((roots.filter (fun r => decide (0 < r.1 ∧ r.2 = 0))).map (fun r => r.1))

/-- Lines 520-533: the full `rho` array, one entry per sample index,
undefined samples included.  `rootsOf i` is the `np.roots` output for the
polynomial `Taylor(ρ) − ρ·tan(π/2 − θ_i)` at sample `i`. -/
def find_poly_inv_rho (rootsOf : ℕ → List (ℚ × ℚ)) (nb_sample : ℕ) : List (Option ℚ) :=
  (List.range nb_sample).map (fun i => selectRho (rootsOf i))

/-- The loop condition `max_error > 0.01` of line 538: `max_error` is `inf`
(always big) while no fit has happened, otherwise the max error of the last
fitted degree. -/
def errStillBig (errF : ℕ → ℚ) : Option ℕ → Bool
  | none => true
  | some d => decide ((1 : ℚ) / 100 < errF d)

/-- Lines 534-542: the degree-search loop.  `errF d` is the max absolute
fitting error `max|rho − polyval(polyfit(theta, rho, d), theta)|` of the
degree-`d` fit (oracle).  State: `deg` is the Python `deg` variable,
`last = some d` records that degree `d` was the last one fitted (so
`max_error = errF d`), `last = none` means no fit has happened yet
(`max_error = inf`).  Returns the last degree fitted, `none` when the loop
body never ran.  `fuel` only bounds the recursion; initial fuel
`max_degree` dominates the number of iterations, which the loop condition
`deg < max_degree` caps at `max_degree − 1`. -/
def invFitLoop (errF : ℕ → ℚ) (max_degree : ℕ) :
    ℕ → ℕ → Option ℕ → Option ℕ
  | 0, _, last => last
  | fuel + 1, deg, last =>
    if errStillBig errF last && decide (deg < max_degree) then
      invFitLoop errF max_degree fuel (deg + 1) (some deg)
    else last

/-- `CalibrationEngine.find_poly_inv` (lines 503-548).  Guards 512-516
translated literally; the sample construction is `find_poly_inv_rho`; the
fit loop is `invFitLoop` started at `deg = 1` with `max_error = inf`.
`fitF rho d` and `errF rho d` are the `np.polyfit` coefficients and max
absolute error of the degree-`d` fit — both receive the FULL sample list
`rho`, exactly as lines 539-541 pass the whole arrays.  When the loop body
never ran, line 547/548 reads the never-assigned local `inv_coefficient`,
which is the `NameError` branch; otherwise the last fit is stored in
`self.inverse_poly` (line 548). -/
def find_poly_inv (e : CalibrationEngine)
    (rootsOf : ℕ → List (ℚ × ℚ))
    (fitF : List (Option ℚ) → ℕ → List ℚ)
    (errF : List (Option ℚ) → ℕ → ℚ)
    (nb_sample : ℕ) (sample_ratio : ℚ) (max_degree_inverse_poly : ℕ) :
    Except PyError CalibrationEngine :=
  if e.taylor_coefficient = none ∨ e.distortion_center = none then
    .error (.valueError msgFisheyeEmpty)
  else if sample_ratio < 0 ∨ 1 < sample_ratio then
    .error (.valueError msgSampleRatio)
  else
    let rho := find_poly_inv_rho rootsOf nb_sample
    match invFitLoop (errF rho) max_degree_inverse_poly max_degree_inverse_poly 1 none with
    | none => .error (.nameError localInvCoefficient)
    | some d => .ok { e with inverse_poly := some (fitF rho d) }

/-- Modelled from the spec: the per-valid-image lists (extrinsics,
reprojection errors, incident angles) are produced by
`get_taylor_linear` / `bundle_adjustement` / `get_reprojection_error_all`,
which live outside this snapshot; the spec states they carry "one entry
per `true` mask entry, in the same relative order as the original
correspondence set restricted to valid entries". -/
def perValidList {α : Type} : List α → List Bool → List α
  | [], _ => []
  | _ :: _, [] => []
  | x :: xs, b :: bs => if b then x :: perValidList xs bs else perValidList xs bs

/-- `theta = np.linspace(0, np.pi * sample_ratio, nb_sample)` (line 520):
the `i`-th sample angle. -/
noncomputable def linspace_theta (sample_ratio : ℝ) (nb_sample : ℕ) (i : ℕ) : ℝ :=
  Real.pi * sample_ratio * i / ((nb_sample : ℝ) - 1)

/-- The 2×2 stretch matrix of `show_model_projection`, row-major
`[[a, b], [c, d]]`. -/
structure Mat2 where
  a : ℝ
  b : ℝ
  c : ℝ
  d : ℝ

def Mat2.det (m : Mat2) : ℝ := m.a * m.d - m.b * m.c

/-- `np.linalg.inv` on a 2×2 matrix (adjugate formula). -/
noncomputable def Mat2.inverse (m : Mat2) : Mat2 :=
  ⟨m.d / m.det, -m.b / m.det, -m.c / m.det, m.a / m.det⟩

def Mat2.mulVec (m : Mat2) (v : ℝ × ℝ) : ℝ × ℝ :=
  (m.a * v.1 + m.b * v.2, m.c * v.1 + m.d * v.2)

/-- `np.polyval(self.taylor_coefficient[::-1], rho)` (line 445): the Taylor
coefficients are stored in ascending order and reversed for `polyval`, so
this is `Σ taylor[i]·ρ^i`, here in Horner form. -/
noncomputable def taylorEval (taylor : List ℝ) (ρ : ℝ) : ℝ :=
  taylor.foldr (fun c acc => c + ρ * acc) 0

/-- `np.arctan2 y x`: the angle of the point `(x, y)`, i.e. the complex
argument of `x + y·i`. -/
noncomputable def arctan2 (y x : ℝ) : ℝ := Complex.arg ⟨x, y⟩

/-- Lines 438-440 of `show_model_projection`: subtract the distortion
center, then `uv_points @ stretch_inv.T`, i.e. apply the inverse of the
stretch matrix. -/
noncomputable def idealCoords (dc : ℝ × ℝ) (S : Mat2) (uv : ℝ × ℝ) : ℝ × ℝ :=
  S.inverse.mulVec (uv.1 - dc.1, uv.2 - dc.2)

/-- Lines 436-450 of `show_model_projection` for a single pixel: ideal
coordinates `(x, y)`, `ρ = √(x²+y²)`, `z = Taylor(ρ)`,
`norm = √(x²+y²+z²)`, normalized world ray `(x,y,z)/norm`, and
`θ = arctan2(√(wx²+wy²), wz)` computed from the normalized ray. -/
noncomputable def forward_map (dc : ℝ × ℝ) (S : Mat2) (taylor : List ℝ) (uv : ℝ × ℝ) :
    (ℝ × ℝ × ℝ) × ℝ :=
  let p := idealCoords dc S uv
  let z := taylorEval taylor (Real.sqrt (p.1 ^ 2 + p.2 ^ 2))
  let n := Real.sqrt (p.1 ^ 2 + p.2 ^ 2 + z ^ 2)
  let w : ℝ × ℝ × ℝ := (p.1 / n, p.2 / n, z / n)
  (w, arctan2 (Real.sqrt (w.1 ^ 2 + w.2.1 ^ 2)) w.2.2)

/-! ### Helper lemmas -/

lemma listMinQ_eq_none_iff (l : List ℚ) : listMinQ l = none ↔ l = [] := by
  cases l with
  | nil => simp [listMinQ]
  | cons x xs =>
    cases h : listMinQ xs <;> simp [listMinQ, h]

lemma listMinQ_mem : ∀ {l : List ℚ} {m : ℚ}, listMinQ l = some m → m ∈ l := by
  intro l
  induction l with
  | nil => intro m h; simp [listMinQ] at h
  | cons x xs ih =>
    intro m h
    simp only [listMinQ] at h
    cases hxs : listMinQ xs with
    | none =>
      rw [hxs] at h
      simp only [Option.some.injEq] at h
      subst h
      exact List.mem_cons_self _ _
    | some m' =>
      rw [hxs] at h
      simp only [Option.some.injEq] at h
      subst h
      rcases min_cases x m' with ⟨hmin, -⟩ | ⟨hmin, -⟩
      · rw [hmin]; exact List.mem_cons_self _ _
      · rw [hmin]; exact List.mem_cons_of_mem _ (ih hxs)

lemma listMinQ_le : ∀ {l : List ℚ} {m : ℚ}, listMinQ l = some m → ∀ x ∈ l, m ≤ x := by
  intro l
  induction l with
  | nil => intro m h; simp [listMinQ] at h
  | cons y ys ih =>
    intro m h x hx
    simp only [listMinQ] at h
    cases hys : listMinQ ys with
    | none =>
      rw [hys] at h
      simp only [Option.some.injEq] at h
      subst h
      have hnil : ys = [] := (listMinQ_eq_none_iff ys).1 hys
      subst hnil
      cases hx with
      | head => exact le_refl _
      | tail b hx => exact absurd hx (List.not_mem_nil _)
    | some m' =>
      rw [hys] at h
      simp only [Option.some.injEq] at h
      subst h
      cases hx with
      | head => exact min_le_left _ _
      | tail b hx => exact le_trans (min_le_right _ _) (ih hys _ hx)

lemma invFitLoop_some_spec (errF : ℕ → ℚ) (maxDeg : ℕ) :
    ∀ fuel deg, 1 ≤ deg → deg ≤ maxDeg → maxDeg ≤ deg + fuel →
    ∃ d, invFitLoop errF maxDeg fuel deg (some (deg - 1)) = some d ∧
      deg - 1 ≤ d ∧ d + 1 ≤ maxDeg ∧
      (∀ k, deg - 1 ≤ k → k < d → 1 / 100 < errF k) ∧
      (errF d ≤ 1 / 100 ∨ d = maxDeg - 1) := by
  intro fuel
  induction fuel with
  | zero =>
    intro deg h1 h2 h3
    refine ⟨deg - 1, rfl, le_refl _, by omega, ?_, Or.inr (by omega)⟩
    intro k hk1 hk2
    omega
  | succ fuel ih =>
    intro deg h1 h2 h3
    by_cases hE : (1 : ℚ) / 100 < errF (deg - 1)
    · by_cases hD : deg < maxDeg
      · have hcond : (errStillBig errF (some (deg - 1)) && decide (deg < maxDeg)) = true := by
          simp [errStillBig, hD]
          simpa using hE
        have step : invFitLoop errF maxDeg (fuel + 1) deg (some (deg - 1)) =
            invFitLoop errF maxDeg fuel (deg + 1) (some deg) := by
          simp only [invFitLoop]
          rw [hcond]
          simp
        obtain ⟨d, hres, hd1, hd2, hall, hend⟩ := ih (deg + 1) (by omega) (by omega) (by omega)
        have hsimp : deg + 1 - 1 = deg := by omega
        rw [hsimp] at hres hd1 hall
        refine ⟨d, step.trans hres, by omega, hd2, ?_, hend⟩
        intro k hk1 hk2
        by_cases hk : k = deg - 1
        · rw [hk]; exact hE
        · exact hall k (by omega) hk2
      · have hcond : (errStillBig errF (some (deg - 1)) && decide (deg < maxDeg)) = false := by
          simp [hD]
        have step : invFitLoop errF maxDeg (fuel + 1) deg (some (deg - 1)) = some (deg - 1) := by
          simp only [invFitLoop]
          rw [hcond]
          simp
        refine ⟨deg - 1, step, le_refl _, by omega, ?_, Or.inr (by omega)⟩
        intro k hk1 hk2
        omega
    · have hcond : (errStillBig errF (some (deg - 1)) && decide (deg < maxDeg)) = false := by
        simp [errStillBig]
        intro h
        exact absurd (by simpa using h) hE
      have step : invFitLoop errF maxDeg (fuel + 1) deg (some (deg - 1)) = some (deg - 1) := by
        simp only [invFitLoop]
        rw [hcond]
        simp
      refine ⟨deg - 1, step, le_refl _, by omega, ?_, Or.inl (le_of_not_lt hE)⟩
      intro k hk1 hk2
      omega

lemma invFitLoop_start_spec (errF : ℕ → ℚ) (maxDeg : ℕ) (hm : 2 ≤ maxDeg) :
    ∃ d, invFitLoop errF maxDeg maxDeg 1 none = some d ∧
      1 ≤ d ∧ d + 1 ≤ maxDeg ∧
      (∀ k, 1 ≤ k → k < d → 1 / 100 < errF k) ∧
      (errF d ≤ 1 / 100 ∨ d = maxDeg - 1) := by
  obtain ⟨fuel, hfuel⟩ : ∃ f, maxDeg = f + 1 := ⟨maxDeg - 1, by omega⟩
  subst hfuel
  have hD : 1 < fuel + 1 := by omega
  have hcond : (errStillBig errF none && decide (1 < fuel + 1)) = true := by
    simp [errStillBig, hD]
  have step : invFitLoop errF (fuel + 1) (fuel + 1) 1 none =
      invFitLoop errF (fuel + 1) fuel 2 (some 1) := by
    simp only [invFitLoop]
    rw [hcond]
    simp
  obtain ⟨d, hres, hd1, hd2, hall, hend⟩ :=
    invFitLoop_some_spec errF (fuel + 1) fuel 2 (by omega) (by omega) (by omega)
  have hsimp : (2 : ℕ) - 1 = 1 := rfl
  rw [hsimp] at hres hd1 hall
  exact ⟨d, step.trans hres, hd1, hd2, hall, hend⟩

lemma invFitLoop_start_none (errF : ℕ → ℚ) (maxDeg : ℕ) (hm : maxDeg ≤ 1) :
    invFitLoop errF maxDeg maxDeg 1 none = none := by
  interval_cases maxDeg <;> simp [invFitLoop]

lemma get_valid_image_paths_nil_mask (keys : List String) :
    get_valid_image_paths keys [] = [] := by
  cases keys <;> rfl

lemma get_valid_image_paths_cons (k : String) (keys : List String) (b : Bool)
    (mask : List Bool) :
    get_valid_image_paths (k :: keys) (b :: mask) =
      if b then k :: get_valid_image_paths keys mask else get_valid_image_paths keys mask := by
  cases b <;> simp [get_valid_image_paths]

lemma get_valid_eq_perValid : ∀ (keys : List String) (mask : List Bool),
    get_valid_image_paths keys mask = perValidList keys mask := by
  intro keys
  induction keys with
  | nil => intro mask; cases mask <;> rfl
  | cons k ks ih =>
    intro mask
    cases mask with
    | nil => rfl
    | cons b bs =>
      rw [get_valid_image_paths_cons]
      cases b <;> simp [perValidList, ih]

lemma perValid_length {α : Type} : ∀ (vs : List α) (mask : List Bool),
    vs.length = mask.length → (perValidList vs mask).length = mask.count true := by
  intro vs
  induction vs with
  | nil =>
    intro mask h
    cases mask with
    | nil => simp [perValidList]
    | cons b bs => simp at h
  | cons v vs ih =>
    intro mask h
    cases mask with
    | nil => simp at h
    | cons b bs =>
      simp only [List.length_cons, Nat.succ.injEq] at h
      cases b <;> simp [perValidList, List.count_cons, ih bs h]

lemma perValid_sublist {α : Type} : ∀ (vs : List α) (mask : List Bool),
    List.Sublist (perValidList vs mask) vs := by
  intro vs
  induction vs with
  | nil => intro mask; cases mask <;> simp [perValidList]
  | cons v vs ih =>
    intro mask
    cases mask with
    | nil => simp [perValidList]
    | cons b bs =>
      cases b with
      | false => exact List.Sublist.cons v (ih bs)
      | true => exact List.Sublist.cons₂ v (ih bs)

lemma perValid_zip {α β : Type} : ∀ (ks : List α) (vs : List β) (mask : List Bool),
    ks.length = mask.length → vs.length = mask.length →
    (perValidList ks mask).zip (perValidList vs mask) = perValidList (ks.zip vs) mask := by
  intro ks
  induction ks with
  | nil =>
    intro vs mask h1 h2
    cases mask with
    | nil => cases vs <;> simp [perValidList]
    | cons b bs => simp at h1
  | cons k ks ih =>
    intro vs mask h1 h2
    cases mask with
    | nil => simp at h1
    | cons b bs =>
      cases vs with
      | nil => simp at h2
      | cons v vs =>
        simp only [List.length_cons, Nat.succ.injEq] at h1 h2
        cases b with
        | false => simpa [perValidList] using ih vs bs h1 h2
        | true =>
          simp [perValidList, List.zip_cons_cons, ih vs bs h1 h2]
          rfl

lemma selectRho_eq_none_iff (roots : List (ℚ × ℚ)) :
    selectRho roots = none ↔ ∀ p ∈ roots, ¬(0 < p.1 ∧ p.2 = 0) := by
  rw [selectRho, listMinQ_eq_none_iff, List.map_eq_nil_iff]
  constructor
  · intro h p hp hcond
    have hmem : p ∈ roots.filter (fun r => decide (0 < r.1 ∧ r.2 = 0)) := by
      rw [List.mem_filter]
      exact ⟨hp, by simpa using hcond⟩
    rw [h] at hmem
    exact absurd hmem (List.not_mem_nil p)
  · intro h
    cases hne : roots.filter (fun r => decide (0 < r.1 ∧ r.2 = 0)) with
    | nil => rfl
    | cons p ps =>
      have hp := List.mem_filter.1 (hne ▸ List.mem_cons_self p ps)
      exact absurd (by simpa using hp.2) (h p hp.1)

lemma selectRho_some_spec (roots : List (ℚ × ℚ)) (x : ℚ) (h : selectRho roots = some x) :
    (x, 0) ∈ roots ∧ 0 < x ∧ ∀ p ∈ roots, 0 < p.1 → p.2 = 0 → x ≤ p.1 := by
  rw [selectRho] at h
  obtain ⟨p, hpf, hpx⟩ := List.mem_map.1 (listMinQ_mem h)
  obtain ⟨hproots, hpcond⟩ := List.mem_filter.1 hpf
  simp only [decide_eq_true_eq] at hpcond
  obtain ⟨hppos, hpim⟩ := hpcond
  have hp : p = (x, 0) := by
    cases p
    simp only at hpx hpim
    rw [hpx] at hppos ⊢
    rw [hpim]
  refine ⟨hp ▸ hproots, hpx ▸ hppos, ?_⟩
  intro q hq hq1 hq2
  apply listMinQ_le h
  rw [List.mem_map]
  exact ⟨q, List.mem_filter.2 ⟨hq, by simp [hq1, hq2]⟩, rfl⟩

lemma find_poly_inv_rho_length (rootsOf : ℕ → List (ℚ × ℚ)) (nb : ℕ) :
    (find_poly_inv_rho rootsOf nb).length = nb := by
  simp [find_poly_inv_rho]

lemma find_poly_inv_rho_getD (rootsOf : ℕ → List (ℚ × ℚ)) (nb i : ℕ) (hi : i < nb) :
    (find_poly_inv_rho rootsOf nb).getD i none = selectRho (rootsOf i) := by
  rw [find_poly_inv_rho, List.getD_eq_getElem?_getD, List.getElem?_map,
    List.getElem?_range hi]
  rfl

lemma find_poly_inv_ok (e : CalibrationEngine) (rootsOf : ℕ → List (ℚ × ℚ))
    (fitF : List (Option ℚ) → ℕ → List ℚ) (errF : List (Option ℚ) → ℕ → ℚ)
    (nb : ℕ) (sr : ℚ) (maxDeg : ℕ)
    (ht : e.taylor_coefficient ≠ none) (hd : e.distortion_center ≠ none)
    (hs0 : ¬sr < 0) (hs1 : ¬1 < sr) (hm : 2 ≤ maxDeg) :
    ∃ d, find_poly_inv e rootsOf fitF errF nb sr maxDeg =
        .ok { e with inverse_poly := some (fitF (find_poly_inv_rho rootsOf nb) d) } ∧
      1 ≤ d ∧ d + 1 ≤ maxDeg ∧
      (∀ k, 1 ≤ k → k < d → 1 / 100 < errF (find_poly_inv_rho rootsOf nb) k) ∧
      (errF (find_poly_inv_rho rootsOf nb) d ≤ 1 / 100 ∨ d = maxDeg - 1) := by
  obtain ⟨d, hres, h1, h2, h3, h4⟩ :=
    invFitLoop_start_spec (errF (find_poly_inv_rho rootsOf nb)) maxDeg hm
  refine ⟨d, ?_, h1, h2, h3, h4⟩
  simp only [find_poly_inv]
  rw [if_neg (not_or.2 ⟨ht, hd⟩), if_neg (not_or.2 ⟨hs0, hs1⟩), hres]

lemma find_poly_inv_name_error (e : CalibrationEngine) (rootsOf : ℕ → List (ℚ × ℚ))
    (fitF : List (Option ℚ) → ℕ → List ℚ) (errF : List (Option ℚ) → ℕ → ℚ)
    (nb : ℕ) (sr : ℚ) (maxDeg : ℕ)
    (ht : e.taylor_coefficient ≠ none) (hd : e.distortion_center ≠ none)
    (hs0 : ¬sr < 0) (hs1 : ¬1 < sr) (hm : maxDeg ≤ 1) :
    find_poly_inv e rootsOf fitF errF nb sr maxDeg = .error (.nameError localInvCoefficient) := by
  simp only [find_poly_inv]
  rw [if_neg (not_or.2 ⟨ht, hd⟩), if_neg (not_or.2 ⟨hs0, hs1⟩),
    invFitLoop_start_none _ _ hm]

/-! ### Concrete inputs used by the evaluation theorems -/

/-- A fresh engine after loading two detections (as after `load_detection`). -/
def exEngineReady : CalibrationEngine :=
  { CalibrationEngine.fresh (100, 80) with detections := ["img0.jpg", "img1.jpg"] }

/-- An engine whose fisheye parameters are set (as after calibration). -/
def exEngineCalibrated : CalibrationEngine :=
  { exEngineReady with taylor_coefficient := some [1, 0, 1] }

def exLinNone : LinearEstimate :=
  { valid_pattern := none, d_center := (0, 0), taylor := [], extrinsics := [] }

def exLinAllFalse : LinearEstimate :=
  { valid_pattern := some [false, false], d_center := (0, 0), taylor := [], extrinsics := [] }

def exLinPartial : LinearEstimate :=
  { valid_pattern := some [true, false], d_center := (50, 40),
    taylor := [2, 0, 1], extrinsics := [[1], [2]] }

def exBundle : BundleResult :=
  { extrinsics := [[3]], stretch := [[1, 0], [0, 1]], d_center := (51, 41), taylor := [2, 0, 1] }

/-! ### Claims about `estimate_fisheye_parameters` -/

/-- C1: when the linear estimation stage yields no valid image — the
validity mask is `None` or has no `true` entry — `estimate_fisheye_parameters`
raises a fatal `ValueError`; when at least one image validates it instead
returns normally (with the updated state), which is the partial case. -/
theorem estimate_fatal_when_no_valid_image
    (e : CalibrationEngine) (lin : LinearEstimate) (ba : BundleResult)
    (hne : e.detections ≠ []) :
    (lin.valid_pattern = none →
      estimate_fisheye_parameters e lin ba = .error (.valueError msgLinearFailed)) ∧
    (∀ vp, lin.valid_pattern = some vp → vp.any id = false →
      estimate_fisheye_parameters e lin ba = .error (.valueError msgLinearFailed)) ∧
    (∀ vp, lin.valid_pattern = some vp → vp.any id = true →
      ∃ w, estimate_fisheye_parameters e lin ba = .ok (estimate_update e lin ba vp, w)) := by
  refine ⟨?_, ?_, ?_⟩
  · intro h
    simp [estimate_fisheye_parameters, hne, h]
  · intro vp h hany
    simp [estimate_fisheye_parameters, hne, h, hany]
  · intro vp h hany
    refine ⟨if vp.all id then []
      else [.partialValidity (invalid_image_names e.detections vp)], ?_⟩
    simp [estimate_fisheye_parameters, hne, h, hany]

/-- Evaluation of C1 at concrete inputs: a `None` mask and an all-`False`
mask both abort with `ValueError`. -/
theorem estimate_fatal_when_no_valid_image_witness :
    exEngineReady.detections ≠ [] ∧
    estimate_fisheye_parameters exEngineReady exLinNone exBundle =
      .error (.valueError msgLinearFailed) ∧
    estimate_fisheye_parameters exEngineReady exLinAllFalse exBundle =
      .error (.valueError msgLinearFailed) :=
  ⟨by decide,
   (estimate_fatal_when_no_valid_image exEngineReady exLinNone exBundle (by decide)).1 rfl,
   (estimate_fatal_when_no_valid_image exEngineReady exLinAllFalse exBundle
      (by decide)).2.1 [false, false] rfl rfl⟩

/-- C5: when some but not all images are valid, `estimate_fisheye_parameters`
returns normally (no exception) with a warning naming exactly the invalid
images, and calibration state is updated from the valid subset. -/
theorem estimate_partial_validity_continues
    (e : CalibrationEngine) (lin : LinearEstimate) (ba : BundleResult) (vp : List Bool)
    (hne : e.detections ≠ []) (hvp : lin.valid_pattern = some vp)
    (hany : vp.any id = true) (hnall : vp.all id = false) :
    estimate_fisheye_parameters e lin ba =
      .ok (estimate_update e lin ba vp,
        [.partialValidity (invalid_image_names e.detections vp)]) := by
  simp [estimate_fisheye_parameters, hne, hvp, hany, hnall]

/-- Evaluation of C5 at a concrete input: mask `[true, false]` continues and
warns about exactly the second image. -/
theorem estimate_partial_validity_continues_witness :
    (([true, false].any id = true) ∧ ([true, false].all id = false)) ∧
    estimate_fisheye_parameters exEngineReady exLinPartial exBundle =
      .ok (estimate_update exEngineReady exLinPartial exBundle [true, false],
        [.partialValidity ["img1.jpg"]]) :=
  ⟨⟨rfl, rfl⟩, by
    have h := estimate_partial_validity_continues exEngineReady exLinPartial exBundle
      [true, false] (by decide) rfl rfl rfl
    rw [h]
    rfl⟩

/-- C6: the operations needing correspondences or prior calibration raise
`ValueError` when invoked too early — `estimate_fisheye_parameters` on an
empty detections mapping (lines 154-156), `find_poly_inv` before the Taylor
coefficients / distortion center are set (lines 512-513), and
`get_chessboard_points_in_camera_system` before detections or extrinsics
exist (lines 219-226). -/
theorem prerequisite_guards_raise
    (e : CalibrationEngine) (lin : LinearEstimate) (ba : BundleResult)
    (rootsOf : ℕ → List (ℚ × ℚ)) (fitF : List (Option ℚ) → ℕ → List ℚ)
    (errF : List (Option ℚ) → ℕ → ℚ) (nb : ℕ) (sr : ℚ) (maxDeg : ℕ)
    (wp : List (ℚ × ℚ × ℚ)) (tr : List ℚ → List (ℚ × ℚ × ℚ) → List (ℚ × ℚ × ℚ)) :
    (e.detections = [] →
      estimate_fisheye_parameters e lin ba = .error (.valueError msgDetectionsEmpty)) ∧
    (e.taylor_coefficient = none ∨ e.distortion_center = none →
      find_poly_inv e rootsOf fitF errF nb sr maxDeg =
        .error (.valueError msgFisheyeEmpty)) ∧
    (e.detections = [] →
      get_chessboard_points_in_camera_system e wp tr =
        .error (.valueError msgDetectionsEmpty)) ∧
    (e.detections ≠ [] → (e.extrinsics_t = none ∨ e.extrinsics_t = some []) →
      get_chessboard_points_in_camera_system e wp tr =
        .error (.valueError msgExtrinsicsEmpty)) := by
  refine ⟨?_, ?_, ?_, ?_⟩
  · intro h
    simp [estimate_fisheye_parameters, h]
  · intro h
    rw [find_poly_inv, if_pos h]
  · intro h
    simp [get_chessboard_points_in_camera_system, h]
  · intro h1 h2
    rcases h2 with h2 | h2 <;> simp [get_chessboard_points_in_camera_system, h1, h2]

/-- Evaluation of C6 at concrete inputs: a fresh engine (no detections, no
calibration) triggers each guard; a loaded engine without extrinsics
triggers the extrinsics guard. -/
theorem prerequisite_guards_raise_witness :
    estimate_fisheye_parameters (CalibrationEngine.fresh (100, 80)) exLinNone exBundle =
      .error (.valueError msgDetectionsEmpty) ∧
    find_poly_inv (CalibrationEngine.fresh (100, 80)) (fun _ => []) (fun _ _ => [])
        (fun _ _ => 0) 100 (9 / 10) 25 = .error (.valueError msgFisheyeEmpty) ∧
    get_chessboard_points_in_camera_system (CalibrationEngine.fresh (100, 80)) []
        (fun _ w => w) = .error (.valueError msgDetectionsEmpty) ∧
    get_chessboard_points_in_camera_system exEngineReady [] (fun _ w => w) =
      .error (.valueError msgExtrinsicsEmpty) :=
  ⟨(prerequisite_guards_raise (CalibrationEngine.fresh (100, 80)) exLinNone exBundle
      (fun _ => []) (fun _ _ => []) (fun _ _ => 0) 100 (9 / 10) 25 [] (fun _ w => w)).1 rfl,
   (prerequisite_guards_raise (CalibrationEngine.fresh (100, 80)) exLinNone exBundle
      (fun _ => []) (fun _ _ => []) (fun _ _ => 0) 100 (9 / 10) 25 [] (fun _ w => w)).2.1
      (Or.inl rfl),
   (prerequisite_guards_raise (CalibrationEngine.fresh (100, 80)) exLinNone exBundle
      (fun _ => []) (fun _ _ => []) (fun _ _ => 0) 100 (9 / 10) 25 [] (fun _ w => w)).2.2.1 rfl,
   (prerequisite_guards_raise exEngineReady exLinNone exBundle
      (fun _ => []) (fun _ _ => []) (fun _ _ => 0) 100 (9 / 10) 25 [] (fun _ w => w)).2.2.2
      (by decide) (Or.inl rfl)⟩

/-! ### Claims about the degree search of `find_poly_inv` -/

/-- C3: `find_poly_inv` fits polynomials of increasing degree starting at 1,
stopping as soon as the max absolute fitting error is within the fixed 0.01
tolerance or the configured maximum degree is reached (the loop guard
`deg < max_degree` caps the last fitted degree at `max_degree − 1`), and the
coefficients of the last fit performed are stored as `inverse_poly`:
the stored degree `d` satisfies `1 ≤ d`, every earlier degree exceeded the
tolerance, and either `d` met the tolerance or `d = max_degree − 1`. -/
theorem find_poly_inv_degree_search
    (e : CalibrationEngine) (rootsOf : ℕ → List (ℚ × ℚ))
    (fitF : List (Option ℚ) → ℕ → List ℚ) (errF : List (Option ℚ) → ℕ → ℚ)
    (nb : ℕ) (sr : ℚ) (maxDeg : ℕ)
    (ht : e.taylor_coefficient ≠ none) (hd : e.distortion_center ≠ none)
    (hs0 : ¬sr < 0) (hs1 : ¬1 < sr) (hm : 2 ≤ maxDeg) :
    ∃ d, find_poly_inv e rootsOf fitF errF nb sr maxDeg =
        .ok { e with inverse_poly := some (fitF (find_poly_inv_rho rootsOf nb) d) } ∧
      1 ≤ d ∧ d + 1 ≤ maxDeg ∧
      (∀ k, 1 ≤ k → k < d → 1 / 100 < errF (find_poly_inv_rho rootsOf nb) k) ∧
      (errF (find_poly_inv_rho rootsOf nb) d ≤ 1 / 100 ∨ d = maxDeg - 1) :=
  find_poly_inv_ok e rootsOf fitF errF nb sr maxDeg ht hd hs0 hs1 hm

def exRootsOne : ℕ → List (ℚ × ℚ) := fun _ => [(1, 0)]

def exFitRep : List (Option ℚ) → ℕ → List ℚ := fun _ d => List.replicate (d + 1) 1

def exErrStep : List (Option ℚ) → ℕ → ℚ := fun _ d => if 3 ≤ d then 0 else 1

def exErrBig : List (Option ℚ) → ℕ → ℚ := fun _ _ => 1

/-- Evaluation of C3 at a concrete input where the fit error first meets the
tolerance at degree 3. -/
theorem find_poly_inv_degree_search_witness :
    (exEngineCalibrated.taylor_coefficient ≠ none ∧ ¬(9 / 10 : ℚ) < 0 ∧
      ¬(1 : ℚ) < 9 / 10 ∧ 2 ≤ 25) ∧
    ∃ d, find_poly_inv exEngineCalibrated exRootsOne exFitRep exErrStep 4 (9 / 10) 25 =
        .ok { exEngineCalibrated with
                inverse_poly := some (exFitRep (find_poly_inv_rho exRootsOne 4) d) } ∧
      1 ≤ d ∧ d + 1 ≤ 25 ∧
      (∀ k, 1 ≤ k → k < d → 1 / 100 < exErrStep (find_poly_inv_rho exRootsOne 4) k) ∧
      (exErrStep (find_poly_inv_rho exRootsOne 4) d ≤ 1 / 100 ∨ d = 25 - 1) :=
  ⟨⟨by decide, by norm_num, by norm_num, by norm_num⟩,
   find_poly_inv_degree_search exEngineCalibrated exRootsOne exFitRep exErrStep 4 (9 / 10) 25
     (by decide) (by decide) (by norm_num) (by norm_num) (by norm_num)⟩

/-- C4: when every degree up to `max_degree − 1` leaves the max fitting
error above the 0.01 tolerance, `find_poly_inv` still returns normally
(no exception — the condition is only logged) and the last iterate, the
degree-`max_degree − 1` fit, is stored in `inverse_poly`. -/
theorem find_poly_inv_degree_exhausted_nonfatal
    (e : CalibrationEngine) (rootsOf : ℕ → List (ℚ × ℚ))
    (fitF : List (Option ℚ) → ℕ → List ℚ) (errF : List (Option ℚ) → ℕ → ℚ)
    (nb : ℕ) (sr : ℚ) (maxDeg : ℕ)
    (ht : e.taylor_coefficient ≠ none) (hd : e.distortion_center ≠ none)
    (hs0 : ¬sr < 0) (hs1 : ¬1 < sr) (hm : 2 ≤ maxDeg)
    (hall : ∀ k, 1 ≤ k → k ≤ maxDeg - 1 →
      1 / 100 < errF (find_poly_inv_rho rootsOf nb) k) :
    find_poly_inv e rootsOf fitF errF nb sr maxDeg =
      .ok { e with
              inverse_poly := some (fitF (find_poly_inv_rho rootsOf nb) (maxDeg - 1)) } := by
  obtain ⟨d, hres, h1, h2, h3, h4⟩ :=
    find_poly_inv_ok e rootsOf fitF errF nb sr maxDeg ht hd hs0 hs1 hm
  have hd' : d = maxDeg - 1 := by
    rcases h4 with h4 | h4
    · exact absurd h4 (not_le.2 (hall d h1 (by omega)))
    · exact h4
  rw [hd'] at hres
  exact hres

/-- Evaluation of C4 at a concrete input whose fit error never drops: max
degree 5 is exhausted, no exception, degree-4 fit stored. -/
theorem find_poly_inv_degree_exhausted_nonfatal_witness :
    (∀ k, 1 ≤ k → k ≤ 5 - 1 →
      (1 : ℚ) / 100 < exErrBig (find_poly_inv_rho exRootsOne 4) k) ∧
    find_poly_inv exEngineCalibrated exRootsOne exFitRep exErrBig 4 (9 / 10) 5 =
      .ok { exEngineCalibrated with
              inverse_poly := some (exFitRep (find_poly_inv_rho exRootsOne 4) (5 - 1)) } :=
  ⟨fun k h1 h2 => by norm_num [exErrBig],
   find_poly_inv_degree_exhausted_nonfatal exEngineCalibrated exRootsOne exFitRep exErrBig
     4 (9 / 10) 5 (by decide) (by decide) (by norm_num) (by norm_num) (by norm_num)
     (fun k h1 h2 => by norm_num [exErrBig])⟩

/-- C10: with the guards passed, `max_degree_inverse_poly ≤ 1` makes the
loop body never execute, so line 547 reads the never-assigned local
`inv_coefficient` (a `NameError`, not a stored polynomial), while
`max_degree_inverse_poly ≥ 2` always stores a fit of degree at most
`max_degree_inverse_poly − 1` (its coefficient array has `d + 1` entries
for fitted degree `d`). -/
theorem find_poly_inv_low_degree_unbound_local
    (e : CalibrationEngine) (rootsOf : ℕ → List (ℚ × ℚ))
    (fitF : List (Option ℚ) → ℕ → List ℚ) (errF : List (Option ℚ) → ℕ → ℚ)
    (nb : ℕ) (sr : ℚ) (maxDeg : ℕ)
    (ht : e.taylor_coefficient ≠ none) (hd : e.distortion_center ≠ none)
    (hs0 : ¬sr < 0) (hs1 : ¬1 < sr)
    (hlen : ∀ l d, (fitF l d).length = d + 1) :
    (maxDeg ≤ 1 →
      find_poly_inv e rootsOf fitF errF nb sr maxDeg =
        .error (.nameError localInvCoefficient)) ∧
    (2 ≤ maxDeg →
      ∃ d, find_poly_inv e rootsOf fitF errF nb sr maxDeg =
          .ok { e with inverse_poly := some (fitF (find_poly_inv_rho rootsOf nb) d) } ∧
        d ≤ maxDeg - 1 ∧
        (fitF (find_poly_inv_rho rootsOf nb) d).length - 1 ≤ maxDeg - 1) := by
  constructor
  · intro hm
    exact find_poly_inv_name_error e rootsOf fitF errF nb sr maxDeg ht hd hs0 hs1 hm
  · intro hm
    obtain ⟨d, hres, h1, h2, h3, h4⟩ :=
      find_poly_inv_ok e rootsOf fitF errF nb sr maxDeg ht hd hs0 hs1 hm
    refine ⟨d, hres, by omega, ?_⟩
    rw [hlen]
    omega

/-- Evaluation of C10 at concrete inputs: `max_degree = 1` hits the unbound
local, `max_degree = 25` stores a polynomial of degree at most 24. -/
theorem find_poly_inv_low_degree_unbound_local_witness :
    ((1 : ℕ) ≤ 1 ∧ (∀ l d, (exFitRep l d).length = d + 1)) ∧
    find_poly_inv exEngineCalibrated exRootsOne exFitRep exErrStep 4 (9 / 10) 1 =
      .error (.nameError localInvCoefficient) ∧
    (∃ d, find_poly_inv exEngineCalibrated exRootsOne exFitRep exErrStep 4 (9 / 10) 25 =
        .ok { exEngineCalibrated with
                inverse_poly := some (exFitRep (find_poly_inv_rho exRootsOne 4) d) } ∧
      d ≤ 25 - 1 ∧
      (exFitRep (find_poly_inv_rho exRootsOne 4) d).length - 1 ≤ 25 - 1) :=
  ⟨⟨le_refl 1, fun l d => by simp [exFitRep]⟩,
   (find_poly_inv_low_degree_unbound_local exEngineCalibrated exRootsOne exFitRep exErrStep
      4 (9 / 10) 1 (by decide) (by decide) (by norm_num) (by norm_num)
      (fun l d => by simp [exFitRep])).1 (le_refl 1),
   (find_poly_inv_low_degree_unbound_local exEngineCalibrated exRootsOne exFitRep exErrStep
      4 (9 / 10) 25 (by decide) (by decide) (by norm_num) (by norm_num)
      (fun l d => by simp [exFitRep])).2 (by norm_num)⟩

/-! ### Claims about the stretch matrix and the valid-image lists -/

/-- C9 counterexample: at construction (`__init__`, line 68) the stretch
matrix field holds Python `None`, not the 2×2 identity, so the claim that it
"is the 2×2 identity from construction until the Bundle Adjuster runs"
fails on the freshly constructed engine. -/
theorem stretch_matrix_not_identity_at_construction :
    (CalibrationEngine.fresh (100, 80)).stretch_matrix = none ∧
    (CalibrationEngine.fresh (100, 80)).stretch_matrix ≠ some [[1, 0], [0, 1]] :=
  ⟨rfl, by decide⟩

/-- C9 amended: the stretch matrix is `None` (unset) from construction until
the Bundle Adjuster runs; after a successful `estimate_fisheye_parameters`
it holds the 2×2 matrix returned by bundle adjustment (line 200). -/
theorem stretch_matrix_unset_until_bundle_adjustment
    (sensor : ℚ × ℚ) (e : CalibrationEngine) (lin : LinearEstimate) (ba : BundleResult)
    (e2 : CalibrationEngine) (ws : List PyWarning)
    (hok : estimate_fisheye_parameters e lin ba = .ok (e2, ws)) :
    (CalibrationEngine.fresh sensor).stretch_matrix = none ∧
    e2.stretch_matrix = some ba.stretch := by
  refine ⟨rfl, ?_⟩
  simp only [estimate_fisheye_parameters] at hok
  split at hok
  · exact absurd hok (by simp)
  split at hok
  · exact absurd hok (by simp)
  split at hok
  · exact absurd hok (by simp)
  simp only [Except.ok.injEq, Prod.mk.injEq] at hok
  rw [← hok.1]
  rfl

/-- Evaluation of C9 at a concrete successful calibration run. -/
theorem stretch_matrix_unset_until_bundle_adjustment_witness :
    estimate_fisheye_parameters exEngineReady exLinPartial exBundle =
      .ok (estimate_update exEngineReady exLinPartial exBundle [true, false],
        [.partialValidity ["img1.jpg"]]) ∧
    ((CalibrationEngine.fresh (100, 80)).stretch_matrix = none ∧
     (estimate_update exEngineReady exLinPartial exBundle [true, false]).stretch_matrix =
       some exBundle.stretch) :=
  ⟨rfl,
   stretch_matrix_unset_until_bundle_adjustment (100, 80) exEngineReady exLinPartial
     exBundle _ _ rfl⟩

/-- C7: `get_valid_image_paths` returns exactly the detection keys whose
mask entry is `true`, in original order (it equals the mask filter and is a
sublist of the keys), its length is the number of `true` entries, and it is
index-aligned with any per-valid-image list (`perValidList`, modelled from
the spec for the externally produced extrinsics / error / angle lists):
zipping the two gives the mask filter of the original key-value pairing. -/
theorem valid_image_lists_alignment {α : Type}
    (keys : List String) (mask : List Bool) (vals : List α)
    (hkm : keys.length = mask.length) (hvm : vals.length = mask.length) :
    get_valid_image_paths keys mask = perValidList keys mask ∧
    (get_valid_image_paths keys mask).length = mask.count true ∧
    List.Sublist (get_valid_image_paths keys mask) keys ∧
    (get_valid_image_paths keys mask).zip (perValidList vals mask) =
      perValidList (keys.zip vals) mask := by
  refine ⟨get_valid_eq_perValid keys mask, ?_, ?_, ?_⟩
  · rw [get_valid_eq_perValid]
    exact perValid_length keys mask hkm
  · rw [get_valid_eq_perValid]
    exact perValid_sublist keys mask
  · rw [get_valid_eq_perValid]
    exact perValid_zip keys vals mask hkm hvm

/-- Evaluation of C7 at a concrete three-image run with mask
`[true, false, true]`. -/
theorem valid_image_lists_alignment_witness :
    (["a", "b", "c"].length = [true, false, true].length ∧
      ([10, 20, 30] : List ℚ).length = [true, false, true].length) ∧
    get_valid_image_paths ["a", "b", "c"] [true, false, true] =
      perValidList ["a", "b", "c"] [true, false, true] ∧
    (get_valid_image_paths ["a", "b", "c"] [true, false, true]).length =
      [true, false, true].count true ∧
    List.Sublist (get_valid_image_paths ["a", "b", "c"] [true, false, true])
      ["a", "b", "c"] ∧
    (get_valid_image_paths ["a", "b", "c"] [true, false, true]).zip
        (perValidList ([10, 20, 30] : List ℚ) [true, false, true]) =
      perValidList (["a", "b", "c"].zip ([10, 20, 30] : List ℚ)) [true, false, true] :=
  ⟨⟨rfl, rfl⟩,
   valid_image_lists_alignment ["a", "b", "c"] [true, false, true] [10, 20, 30] rfl rfl⟩

/-! ### Claims about the root selection of `find_poly_inv` -/

/-- Root oracle where sample 0 has no positive real root (a negative real
root and a complex one) while every other sample has the real root 3. -/
def exRootsMixed : ℕ → List (ℚ × ℚ) := fun i =>
  if i = 0 then [(-2, 0), (1, 1)] else [(3, 0)]

/-- A fit oracle that inspects whether its sample input still contains an
undefined (`NaN`) entry. -/
def exFitDetect : List (Option ℚ) → ℕ → List ℚ := fun l _ =>
  if none ∈ l then [0] else [1]

/-- A fit oracle ignoring its input. -/
def exFitConst : List (Option ℚ) → ℕ → List ℚ := fun _ _ => [1]

/-- An error oracle that always meets the tolerance. -/
def exErrZero : List (Option ℚ) → ℕ → ℚ := fun _ _ => 0

lemma find_poly_inv_zero_error_run (fitF : List (Option ℚ) → ℕ → List ℚ) :
    find_poly_inv exEngineCalibrated exRootsMixed fitF exErrZero 2 (9 / 10) 5 =
      .ok { exEngineCalibrated with
              inverse_poly := some (fitF (find_poly_inv_rho exRootsMixed 2) 1) } := by
  obtain ⟨d, hres, h1, h2, h3, h4⟩ :=
    find_poly_inv_ok exEngineCalibrated exRootsMixed fitF exErrZero 2 (9 / 10) 5
      (by decide) (by decide) (by norm_num) (by norm_num) (by norm_num)
  have hd1 : d = 1 := by
    by_contra hne
    have hlt : 1 < d := by omega
    have := h3 1 (le_refl 1) hlt
    norm_num [exErrZero] at this
  rw [hd1] at hres
  exact hres

/-- C2 counterexample: sample 0 of `exRootsMixed` has no positive real root
and is marked undefined (`none`, the `np.nan` of line 529) — but it is NOT
excluded from the subsequent polynomial fitting: the full two-entry sample
list reaches the fit (lines 539-541 pass the whole arrays), so two fit
oracles that agree on the defined samples still produce different stored
inverse polynomials. -/
theorem undefined_sample_not_excluded_counterexample :
    selectRho (exRootsMixed 0) = none ∧
    find_poly_inv_rho exRootsMixed 2 = [none, some 3] ∧
    exFitDetect ((find_poly_inv_rho exRootsMixed 2).filter (fun o => o.isSome)) 1 =
      exFitConst ((find_poly_inv_rho exRootsMixed 2).filter (fun o => o.isSome)) 1 ∧
    find_poly_inv exEngineCalibrated exRootsMixed exFitDetect exErrZero 2 (9 / 10) 5 =
      .ok { exEngineCalibrated with inverse_poly := some [0] } ∧
    find_poly_inv exEngineCalibrated exRootsMixed exFitConst exErrZero 2 (9 / 10) 5 =
      .ok { exEngineCalibrated with inverse_poly := some [1] } ∧
    some ([0] : List ℚ) ≠ some ([1] : List ℚ) := by
  refine ⟨rfl, rfl, rfl, ?_, ?_, by decide⟩
  · rw [find_poly_inv_zero_error_run exFitDetect]
    rfl
  · rw [find_poly_inv_zero_error_run exFitConst]
    rfl

/-- C2 amended: for each of the `nb_sample` evenly spaced angles over
`[0, π·sample_ratio]`, the sample value is the SMALLEST positive real root
of `Taylor(ρ) − ρ·tan(π/2 − θ)` delivered by `np.roots`, and a sample with
no positive real root is marked undefined (`NaN`), never coerced to zero —
but undefined samples are NOT excluded from the subsequent fitting: the
full `nb_sample`-entry array, undefined entries included, is what
`np.polyfit` receives. -/
theorem find_poly_inv_root_selection
    (roots : List (ℚ × ℚ)) (x : ℚ) (rootsOf : ℕ → List (ℚ × ℚ)) (nb i : ℕ)
    (e : CalibrationEngine)
    (fitF : List (Option ℚ) → ℕ → List ℚ) (errF : List (Option ℚ) → ℕ → ℚ)
    (sr : ℚ) (maxDeg : ℕ) (srr : ℝ)
    (hi : i < nb)
    (ht : e.taylor_coefficient ≠ none) (hd : e.distortion_center ≠ none)
    (hs0 : ¬sr < 0) (hs1 : ¬1 < sr) (hm : 2 ≤ maxDeg) (hnb : 2 ≤ nb) :
    (find_poly_inv_rho rootsOf nb).getD i none = selectRho (rootsOf i) ∧
    (selectRho roots = none ↔ ∀ p ∈ roots, ¬(0 < p.1 ∧ p.2 = 0)) ∧
    (selectRho roots = some x →
      (x, 0) ∈ roots ∧ 0 < x ∧ ∀ p ∈ roots, 0 < p.1 → p.2 = 0 → x ≤ p.1) ∧
    (find_poly_inv_rho rootsOf nb).length = nb ∧
    (∃ d, find_poly_inv e rootsOf fitF errF nb sr maxDeg =
      .ok { e with inverse_poly := some (fitF (find_poly_inv_rho rootsOf nb) d) }) ∧
    (linspace_theta srr nb 0 = 0 ∧
     linspace_theta srr nb (nb - 1) = Real.pi * srr ∧
     ∀ j, linspace_theta srr nb (j + 1) - linspace_theta srr nb j =
       Real.pi * srr / ((nb : ℝ) - 1)) := by
  refine ⟨find_poly_inv_rho_getD rootsOf nb i hi, selectRho_eq_none_iff roots,
    selectRho_some_spec roots x, find_poly_inv_rho_length rootsOf nb, ?_, ?_, ?_, ?_⟩
  · obtain ⟨d, hres, -, -, -, -⟩ :=
      find_poly_inv_ok e rootsOf fitF errF nb sr maxDeg ht hd hs0 hs1 hm
    exact ⟨d, hres⟩
  · simp [linspace_theta]
  · have hne : ((nb : ℝ) - 1) ≠ 0 := by
      have : (2 : ℝ) ≤ (nb : ℝ) := by exact_mod_cast hnb
      nlinarith
    rw [linspace_theta, Nat.cast_sub (by omega), Nat.cast_one,
      mul_div_assoc, div_self hne, mul_one]
  · intro j
    rw [linspace_theta, linspace_theta, div_sub_div_same]
    push_cast
    ring_nf

/-- Evaluation of C2 at concrete inputs: sample 1 of `exRootsMixed` selects
its only positive real root 3, and the full two-sample list reaches the
fit. -/
theorem find_poly_inv_root_selection_witness :
    ((1 : ℕ) < 2 ∧ exEngineCalibrated.taylor_coefficient ≠ none ∧
      ¬(9 / 10 : ℚ) < 0 ∧ (2 : ℕ) ≤ 5 ∧ (2 : ℕ) ≤ 2) ∧
    ((find_poly_inv_rho exRootsMixed 2).getD 1 none = selectRho (exRootsMixed 1) ∧
     (selectRho (exRootsMixed 1) = none ↔
       ∀ p ∈ exRootsMixed 1, ¬(0 < p.1 ∧ p.2 = 0)) ∧
     (selectRho (exRootsMixed 1) = some 3 →
       ((3 : ℚ), (0 : ℚ)) ∈ exRootsMixed 1 ∧ (0 : ℚ) < 3 ∧
         ∀ p ∈ exRootsMixed 1, 0 < p.1 → p.2 = 0 → 3 ≤ p.1) ∧
     (find_poly_inv_rho exRootsMixed 2).length = 2 ∧
     (∃ d, find_poly_inv exEngineCalibrated exRootsMixed exFitConst exErrZero 2 (9 / 10) 5 =
       .ok { exEngineCalibrated with
               inverse_poly := some (exFitConst (find_poly_inv_rho exRootsMixed 2) d) }) ∧
     (linspace_theta (1 / 2) 2 0 = 0 ∧
      linspace_theta (1 / 2) 2 (2 - 1) = Real.pi * (1 / 2) ∧
      ∀ j, linspace_theta (1 / 2) 2 (j + 1) - linspace_theta (1 / 2) 2 j =
        Real.pi * (1 / 2) / (((2 : ℕ) : ℝ) - 1))) :=
  ⟨⟨by norm_num, by decide, by norm_num, by norm_num, by norm_num⟩,
   find_poly_inv_root_selection (exRootsMixed 1) 3 exRootsMixed 2 1 exEngineCalibrated
     exFitConst exErrZero (9 / 10) 5 (1 / 2) (by norm_num) (by decide) (by decide)
     (by norm_num) (by norm_num) (by norm_num) (by norm_num)⟩

/-! ### Claim about the forward projection mapping -/

/-- C8: for a sensor pixel `(u,v)`, `forward_map` subtracts the distortion
center and applies the inverse of the stretch matrix to get ideal
coordinates `(x,y)` (`idealCoords`), takes `ρ = √(x²+y²)` and
`z = Taylor(ρ)`, and the returned ray is `(x,y,z)` normalized while the
returned incident angle — computed in the code from the normalized ray —
equals `atan2(√(x²+y²), z)` on the unnormalized coordinates, the angle from
the optical axis (the mapping is a pure function by construction). -/
theorem show_model_projection_forward_map
    (dc : ℝ × ℝ) (S : Mat2) (taylor : List ℝ) (uv : ℝ × ℝ)
    (hn : Real.sqrt ((idealCoords dc S uv).1 ^ 2 + (idealCoords dc S uv).2 ^ 2 +
      taylorEval taylor
        (Real.sqrt ((idealCoords dc S uv).1 ^ 2 + (idealCoords dc S uv).2 ^ 2)) ^ 2) ≠ 0) :
    (forward_map dc S taylor uv).2 =
      arctan2 (Real.sqrt ((idealCoords dc S uv).1 ^ 2 + (idealCoords dc S uv).2 ^ 2))
        (taylorEval taylor
          (Real.sqrt ((idealCoords dc S uv).1 ^ 2 + (idealCoords dc S uv).2 ^ 2))) ∧
    (forward_map dc S taylor uv).1 =
      ((idealCoords dc S uv).1 /
          Real.sqrt ((idealCoords dc S uv).1 ^ 2 + (idealCoords dc S uv).2 ^ 2 +
            taylorEval taylor
              (Real.sqrt ((idealCoords dc S uv).1 ^ 2 + (idealCoords dc S uv).2 ^ 2)) ^ 2),
        (idealCoords dc S uv).2 /
          Real.sqrt ((idealCoords dc S uv).1 ^ 2 + (idealCoords dc S uv).2 ^ 2 +
            taylorEval taylor
              (Real.sqrt ((idealCoords dc S uv).1 ^ 2 + (idealCoords dc S uv).2 ^ 2)) ^ 2),
        taylorEval taylor
            (Real.sqrt ((idealCoords dc S uv).1 ^ 2 + (idealCoords dc S uv).2 ^ 2)) /
          Real.sqrt ((idealCoords dc S uv).1 ^ 2 + (idealCoords dc S uv).2 ^ 2 +
            taylorEval taylor
              (Real.sqrt ((idealCoords dc S uv).1 ^ 2 + (idealCoords dc S uv).2 ^ 2)) ^ 2)) := by
  set p := idealCoords dc S uv with hp
  set s := Real.sqrt (p.1 ^ 2 + p.2 ^ 2) with hs
  set z := taylorEval taylor s with hz
  set n := Real.sqrt (p.1 ^ 2 + p.2 ^ 2 + z ^ 2) with hnn
  have hpos : 0 < n := lt_of_le_of_ne (Real.sqrt_nonneg _) (Ne.symm hn)
  constructor
  · show arctan2 (Real.sqrt ((p.1 / n) ^ 2 + (p.2 / n) ^ 2)) (z / n) = arctan2 s z
    have hsq : (p.1 / n) ^ 2 + (p.2 / n) ^ 2 = (p.1 ^ 2 + p.2 ^ 2) / n ^ 2 := by
      field_simp
    have hsn : Real.sqrt ((p.1 / n) ^ 2 + (p.2 / n) ^ 2) = s / n := by
      rw [hsq, Real.sqrt_div (by positivity), hs, Real.sqrt_sq hpos.le]
    rw [hsn]
    show Complex.arg (Complex.mk (z / n) (s / n)) = Complex.arg (Complex.mk z s)
    have hmk : Complex.mk (z / n) (s / n) = ((n⁻¹ : ℝ) : ℂ) * Complex.mk z s := by
      rw [Complex.mk_eq_add_mul_I, Complex.mk_eq_add_mul_I]
      push_cast
      ring
    rw [hmk, Complex.arg_real_mul _ (inv_pos.mpr hpos)]
  · rfl

/-- Evaluation of C8 at a concrete pixel: identity stretch matrix, Taylor
polynomial `z = ρ`, pixel `(1, 0)` with distortion center `(0, 0)`. -/
theorem show_model_projection_forward_map_witness :
    Real.sqrt ((idealCoords (0, 0) ⟨1, 0, 0, 1⟩ (1, 0)).1 ^ 2 +
        (idealCoords (0, 0) ⟨1, 0, 0, 1⟩ (1, 0)).2 ^ 2 +
        taylorEval [0, 1]
          (Real.sqrt ((idealCoords (0, 0) ⟨1, 0, 0, 1⟩ (1, 0)).1 ^ 2 +
            (idealCoords (0, 0) ⟨1, 0, 0, 1⟩ (1, 0)).2 ^ 2)) ^ 2) ≠ 0 ∧
    (forward_map (0, 0) ⟨1, 0, 0, 1⟩ [0, 1] (1, 0)).2 =
      arctan2
        (Real.sqrt ((idealCoords (0, 0) ⟨1, 0, 0, 1⟩ (1, 0)).1 ^ 2 +
          (idealCoords (0, 0) ⟨1, 0, 0, 1⟩ (1, 0)).2 ^ 2))
        (taylorEval [0, 1]
          (Real.sqrt ((idealCoords (0, 0) ⟨1, 0, 0, 1⟩ (1, 0)).1 ^ 2 +
            (idealCoords (0, 0) ⟨1, 0, 0, 1⟩ (1, 0)).2 ^ 2))) := by
  have hco : idealCoords (0, 0) ⟨1, 0, 0, 1⟩ ((1 : ℝ), (0 : ℝ)) = (1, 0) := by
    simp [idealCoords, Mat2.inverse, Mat2.mulVec, Mat2.det]
  have hn : Real.sqrt ((idealCoords (0, 0) ⟨1, 0, 0, 1⟩ ((1 : ℝ), (0 : ℝ))).1 ^ 2 +
      (idealCoords (0, 0) ⟨1, 0, 0, 1⟩ (1, 0)).2 ^ 2 +
      taylorEval [0, 1]
        (Real.sqrt ((idealCoords (0, 0) ⟨1, 0, 0, 1⟩ (1, 0)).1 ^ 2 +
          (idealCoords (0, 0) ⟨1, 0, 0, 1⟩ (1, 0)).2 ^ 2)) ^ 2) ≠ 0 := by
    rw [hco]
    norm_num
    have ht : taylorEval [0, 1] (1 : ℝ) = 1 := by
      simp [taylorEval]
    rw [ht]
    norm_num [Real.sqrt_eq_zero']
  exact ⟨hn, (show_model_projection_forward_map (0, 0) ⟨1, 0, 0, 1⟩ [0, 1] (1, 0) hn).1⟩
